import Mathlib

/-!
# Verification of the resilient RPC / transaction-delivery layer

Shallow embedding of the `SteroidConnection` (resilient invocation with
failover and health tracking) and `SteroidTransaction` (delivery engine with
simulation, re-broadcast loop and multi-node confirmation polling) classes,
together with the state/backoff utilities, and proofs of the specified
properties over that embedding.

Machine integers are modelled as `Int`/`Nat`; millisecond quantities that the
source computes with floating point (backoff with jitter) are modelled as `ℚ`.
JavaScript `Map`s are modelled as association lists in insertion order.
-/

/-- JavaScript `String.prototype.includes`: substring containment. -/
def strIncludes (s pat : String) : Bool :=
  decide (pat.data <:+: s.data)

/-- JavaScript `String.prototype.toLowerCase` (character-wise lowering; the
classification patterns in the source are all ASCII). -/
def strToLower (s : String) : String :=
  ⟨s.data.map Char.toLower⟩

/-! ## Transaction delivery state (`SteroidWalletTypes` / `stateUtils`) -/

/-- The `TransactionState` enum from the types module. -/
inductive TransactionState where
  | PENDING
  | SIMULATED
  | SIGNED
  | SENT
  | CONFIRMED
  | FINALIZED
  | FAILED
  | EXPIRED
  deriving DecidableEq, Repr

/-- The `TransactionStateInfo` record tracked per delivery call. -/
structure TransactionStateInfo where
  state : TransactionState
  signature : Option String := none
  error : Option String := none
  attempts : Nat
  startTime : Int
  lastAttemptTime : Option Int := none
  confirmedAt : Option Int := none
  deriving DecidableEq, Repr

/-- Embeds `SteroidTransaction.updateState` applied to one record: sets the status
field unconditionally and the signature/error fields only when the argument is
truthy (present and non-empty, matching JS truthiness on strings). -/
def updateState (existing : TransactionStateInfo) (state : TransactionState)
    (signature : Option String) (error : Option String) : TransactionStateInfo :=
  { existing with
    state := state
    signature :=
      match signature with
      | some s => if s = "" then existing.signature else some s
      | none => existing.signature
    error :=
      match error with
      | some e => if e = "" then existing.error else some e
      | none => existing.error }

/-- Embeds `clearExpiredEntries` from `stateUtils.ts`: iterates over the map and
deletes every entry whose age `now - startTime` strictly exceeds `maxAgeMs`.
`Date.now()` is read once at entry and passed here as `now`. -/
def clearExpiredEntries (now maxAgeMs : Int) :
    List (String × TransactionStateInfo) → List (String × TransactionStateInfo)
  | [] => []
  | entry :: rest =>
    if now - entry.2.startTime > maxAgeMs then clearExpiredEntries now maxAgeMs rest
    else entry :: clearExpiredEntries now maxAgeMs rest

/-- Embeds `SteroidTransaction.clearOldStates`: delegates to `clearExpiredEntries`
on the delivery-state store. -/
def clearOldStates (transactionStates : List (String × TransactionStateInfo))
    (now olderThanMs : Int) : List (String × TransactionStateInfo) :=
  clearExpiredEntries now olderThanMs transactionStates

/-! ## Backoff (`SteroidConnection.calculateBackoff`) -/

/-- Constant `SteroidConnection.MAX_BACKOFF_DELAY_MS`. -/
def MAX_BACKOFF_DELAY_MS : ℚ := 10000

/-- Constant `SteroidConnection.JITTER_MS`: `Math.random() * JITTER_MS` yields a jitter
in `[0, JITTER_MS)`. -/
def JITTER_MS : ℚ := 100

/-- Embeds `SteroidConnection.calculateBackoff`, with the random jitter made an
explicit parameter. -/
def calculateBackoff (retryDelay : ℚ) (attempt : Nat) (jitter : ℚ) : ℚ :=
  let baseDelay := retryDelay
  let exponentialDelay := baseDelay * 2 ^ (attempt - 1)
  min (exponentialDelay + jitter) MAX_BACKOFF_DELAY_MS

/-! ## Resilient connection (`SteroidConnection`) -/

/-- A JS error as seen by the classification helpers: `message` is
`error.message?.toLowerCase() || ''`'s source string (empty when absent) and
`statusCode` is `error.statusCode || error.status || 0`. -/
structure ErrorInfo where
  message : String
  statusCode : Int
  deriving DecidableEq, Repr

/-- Embeds `SteroidConnection.parseErrorContext`. -/
def parseErrorContext (e : ErrorInfo) : String × Int :=
  (strToLower e.message, e.statusCode)

/-- Embeds `SteroidConnection.isTransientError`. -/
def isTransientError (e : ErrorInfo) : Bool :=
  let ctx := parseErrorContext e
  let message := ctx.1
  let statusCode := ctx.2
  let matchedMessage :=
    ["retry", "429", "too many requests", "rate limit"].any (fun m => strIncludes message m)
  let matchedCode := [(429 : Int), 408].contains statusCode
  let isRpcTimeout := strIncludes message "timeout" && !(strIncludes message "transaction")
  matchedMessage || matchedCode || isRpcTimeout

/-- Embeds `SteroidConnection.isNodeFailure`. -/
def isNodeFailure (e : ErrorInfo) : Bool :=
  let ctx := parseErrorContext e
  let message := ctx.1
  let statusCode := ctx.2
  let matchedMessage :=
    ["fetch failed", "network error", "econnrefused", "enotfound", "etimedout",
      "503", "504", "502", "connection reset"].any (fun m => strIncludes message m)
  let matchedCode := [(502 : Int), 503, 504].contains statusCode
  matchedMessage || matchedCode

/-- The `RPCHealth` record from the types module. -/
structure RPCHealth where
  url : String
  healthy : Bool
  lastChecked : Int
  latency : Option Int := none
  deriving DecidableEq, Repr

/-- The mutable fields of a `SteroidConnection` that the resilience logic
touches (the active `Connection` object itself carries no modelled state; it is
recreated from the URL on failover). -/
structure ConnState where
  urls : List String
  currentUrlIndex : Nat
  healthStatus : List (String × RPCHealth)
  failoverCount : Nat
  lastFailoverTime : Int
  deriving DecidableEq, Repr

/-- Embeds `Map.get` on the health map (first entry with the given key). -/
def lookupHealth : List (String × RPCHealth) → String → Option RPCHealth
  | [], _ => none
  | (k, v) :: rest, u => if k = u then some v else lookupHealth rest u

/-- The health map built by the constructor: one all-healthy entry per URL. -/
def initHealthStatus (urls : List String) (now : Int) : List (String × RPCHealth) :=
  urls.map (fun u => (u, { url := u, healthy := true, lastChecked := now }))

/-- Embeds `SteroidConnection.getActiveEndpoint`. -/
def getActiveEndpoint (s : ConnState) : String :=
  s.urls.getD s.currentUrlIndex ""

/-- Embeds `SteroidConnection.updateHealthStatus`: mutates the entry for `url` when
present; the latency field is only overwritten when a latency is supplied. -/
def updateHealthStatus (hs : List (String × RPCHealth)) (url : String)
    (healthy : Bool) (now : Int) (latency : Option Int) : List (String × RPCHealth) :=
  hs.map (fun p =>
    if p.1 = url then
      (p.1, { p.2 with
        healthy := healthy
        lastChecked := now
        latency := match latency with | some l => some l | none => p.2.latency })
    else p)

/-- Embeds `this.healthStatus.get(this.urls[index])?.healthy`, as a Bool (JS
`undefined` is falsy). -/
def healthyAt (s : ConnState) (index : Nat) : Bool :=
  match s.urls.get? index with
  | some u =>
    match lookupHealth s.healthStatus u with
    | some h => h.healthy
    | none => false
  | none => false

/-- Embeds `const startIndex = (this.currentUrlIndex + 1) % this.urls.length`. -/
def startIndexOf (s : ConnState) : Nat :=
  (s.currentUrlIndex + 1) % s.urls.length

/-- First index `i` with `start ≤ i < start + count` satisfying `p`; embeds the
`for (let i = 0; i < len; i++)` scan of `findNextAvailableRpcIndex`. -/
def firstIndexWhere (p : Nat → Bool) : Nat → Nat → Option Nat
  | _, 0 => none
  | start, count + 1 =>
    if p start then some start else firstIndexWhere p (start + 1) count

/-- Embeds `SteroidConnection.findNextAvailableRpcIndex`: circular scan from the index
after the current one for a healthy endpoint; falls back to the immediate next
index when none is healthy. Note the scan consults only the health map — the
set of already-attempted indices is not an input. -/
def findNextAvailableRpcIndex (s : ConnState) : Nat :=
  match firstIndexWhere
      (fun i => healthyAt s ((startIndexOf s + i) % s.urls.length)) 0 s.urls.length with
  | some i => (startIndexOf s + i) % s.urls.length
  | none => startIndexOf s

/-- Modelled from the spec: `selectNext(excluding)` "returns the next endpoint,
preferring the nearest healthy endpoint strictly after the current index
(circular scan) that is not in `excluding`; if none qualifies, falls back to
the immediate next index regardless of health". Stated only for comparison with
the implemented `findNextAvailableRpcIndex`, which takes no excluding set. -/
def selectNextSpec (s : ConnState) (excluding : List Nat) : Nat :=
  match firstIndexWhere
      (fun i => healthyAt s ((startIndexOf s + i) % s.urls.length) &&
        !(excluding.contains ((startIndexOf s + i) % s.urls.length))) 0 s.urls.length with
  | some i => (startIndexOf s + i) % s.urls.length
  | none => startIndexOf s

/-- Embeds `SteroidConnection.switchToNextRpc`. -/
def switchToNextRpc (s : ConnState) (now : Int) : ConnState :=
  let nextIndex := findNextAvailableRpcIndex s
  { s with
    currentUrlIndex := nextIndex
    failoverCount := s.failoverCount + 1
    lastFailoverTime := now }

/-- Embeds `attemptedUrls.add(this.currentUrlIndex)` on the set of attempted indices. -/
def insertAttempted (attempted : List Nat) (i : Nat) : List Nat :=
  if attempted.contains i then attempted else i :: attempted

/-- Embeds `SteroidConnection.handleExecutionError`: transient errors retry in place
(after a backoff sleep, which has no modelled state effect); node failures mark
the active endpoint unhealthy and fail over when an untried endpoint may
remain; anything else stops the loop. Returns (shouldRetry, new state). -/
def handleExecutionError (s : ConnState) (e : ErrorInfo) (attemptedUrls : List Nat)
    (now : Int) : Bool × ConnState :=
  if isTransientError e then (true, s)
  else if isNodeFailure e then
    let s1 := { s with
      healthStatus := updateHealthStatus s.healthStatus
        (s.urls.getD s.currentUrlIndex "") false now none }
    if 1 < s.urls.length ∧ attemptedUrls.length < s.urls.length then
      (true, switchToNextRpc s1 now)
    else (false, s1)
  else (false, s)

/-- The enriched error object built by `SteroidConnection.enhanceError`. -/
structure EnhancedError where
  message : String
  originalError : ErrorInfo
  methodName : String
  attempts : Nat
  currentUrl : String
  deriving DecidableEq, Repr

/-- Embeds `SteroidConnection.enhanceError`. -/
def enhanceError (s : ConnState) (e : ErrorInfo) (methodName : String)
    (attempts : Nat) : EnhancedError :=
  { message := "[SteroidConnection] " ++ methodName ++ " failed after " ++
      toString attempts ++ " attempts. Last error: " ++ e.message
    originalError := e
    methodName := methodName
    attempts := attempts
    currentUrl := s.urls.getD s.currentUrlIndex "" }

/-- Outcome of one raw call against the endpoint active at that moment. -/
inductive CallOutcome where
  | success (v : String)
  | failure (e : ErrorInfo)
  deriving DecidableEq, Repr

/-- Result of `executeWithResilience`, with the final connection state, the
number of attempts performed, and the loop's `lastError` variable kept for
inspection. -/
structure InvokeResult where
  result : Except EnhancedError String
  finalState : ConnState
  attemptsMade : Nat
  lastError : Option ErrorInfo
  deriving Repr

/-- The retry loop of `SteroidConnection.executeWithResilience`. `env a i` is
the outcome of the call performed at (0-based) attempt `a` while endpoint `i`
is active; `times a` is the clock during attempt `a`. The
`lastError.getD ⟨"", 0⟩` in the exhaustion case is only reachable when
`maxRetries = 0` (where the source would fault reading `undefined.message`). -/
def executeGo (env : Nat → Nat → CallOutcome) (times : Nat → Int)
    (methodName : String) (maxRetries : Nat) :
    Nat → Nat → ConnState → List Nat → Option ErrorInfo → InvokeResult
  | 0, attempt, s, _, lastError =>
    { result := .error (enhanceError s (lastError.getD ⟨"", 0⟩) methodName maxRetries)
      finalState := s
      attemptsMade := attempt
      lastError := lastError }
  | fuel + 1, attempt, s, attemptedUrls, lastError =>
    match env attempt s.currentUrlIndex with
    | .success v =>
      let s1 := { s with
        healthStatus := updateHealthStatus s.healthStatus (getActiveEndpoint s)
          true (times attempt) none }
      { result := .ok v
        finalState := s1
        attemptsMade := attempt + 1
        lastError := lastError }
    | .failure e =>
      let attempted1 := insertAttempted attemptedUrls s.currentUrlIndex
      let hr := handleExecutionError s e attempted1 (times attempt)
      if hr.1 then
        executeGo env times methodName maxRetries fuel (attempt + 1) hr.2 attempted1 (some e)
      else
        { result := .error (enhanceError hr.2 e methodName (attempt + 1))
          finalState := hr.2
          attemptsMade := attempt + 1
          lastError := some e }

/-- Embeds `SteroidConnection.executeWithResilience`. -/
def executeWithResilience (env : Nat → Nat → CallOutcome) (times : Nat → Int)
    (methodName : String) (maxRetries : Nat) (s0 : ConnState) : InvokeResult :=
  executeGo env times methodName maxRetries maxRetries 0 s0 [] none

/-! ## Transaction delivery engine (`SteroidTransaction`) -/

/-- The `err` field of a simulation result: a JSON string, an
`{InstructionError: [index, error]}` object, or some other JSON value
(rendered by `JSON.stringify`). -/
inductive SimErrVal where
  | str (s : String)
  | instructionError (index : Nat) (e : String)
  | other (json : String)
  deriving DecidableEq, Repr

/-- Shape of `simulation.value` as consumed by `parseSimulationError`. -/
structure SimulationValue where
  err : Option SimErrVal
  logs : Option (List String)
  deriving DecidableEq, Repr

/-- The `simulationValue.err` fallback branches of `parseSimulationError`
(string passthrough, `InstructionError` formatting, `JSON.stringify`). -/
def renderSimErr : SimErrVal → String
  | .str s => s
  | .instructionError i e2 => "Instruction " ++ toString i ++ " failed: " ++ e2
  | .other j => j

/-- Embeds `parseSimulationError` from `solanaUtils.ts`. -/
def parseSimulationError (v : SimulationValue) : String :=
  let logs := v.logs.getD []
  match logs.find? (fun l =>
      strIncludes l "Error:" || strIncludes l "failed" ||
      strIncludes l "custom program error") with
  | some errorLog => errorLog
  | none =>
    match v.err with
    | some e => renderSimErr e
    | none => "Unknown simulation error"

/-- Embeds `isBlockhashExpiredError` from `solanaUtils.ts`. The `instanceof
TransactionExpiredBlockheightExceededError` arm is represented by its message
substring (`"block height exceeded"`), which that error class carries. -/
def isBlockhashExpiredError (e : ErrorInfo) : Bool :=
  strIncludes e.message "block height exceeded" ||
  strIncludes e.message "blockhash not found"

/-- Embeds `SteroidTransaction.simulateTransaction`: the RPC call either fails
outright (`.error m`) or yields a simulation value; a reported simulation
error is thrown as a `Simulation failed` message, and the surrounding catch
rethrows `Simulation failed` errors as-is while wrapping anything else as a
`Simulation error`. -/
def simulateTransaction (sim : Except String SimulationValue) : Except String Unit :=
  let body : Except String Unit :=
    match sim with
    | .error m => .error m
    | .ok v =>
      match v.err with
      | some _ => .error ("[SteroidTransaction] Simulation failed: " ++ parseSimulationError v)
      | none => .ok ()
  match body with
  | .ok () => .ok ()
  | .error m =>
    if strIncludes m "Simulation failed" then .error m
    else .error ("[SteroidTransaction] Simulation error: " ++ m)

/-- Shape of `status.value` of `getSignatureStatus`: `err` holds the
`JSON.stringify`-rendered execution error when present. -/
structure SignatureStatusValue where
  err : Option String
  confirmationStatus : Option String
  deriving DecidableEq, Repr

/-- Outcome of one `getSignatureStatus` query against one endpoint: the
response value (possibly `null`), or a network-level failure reaching that
endpoint. -/
inductive StatusFetch where
  | ok (v : Option SignatureStatusValue)
  | netError (msg : String)
  deriving DecidableEq, Repr

/-- The body of the per-endpoint closure in `pollForConfirmation`, before its
own `catch`: throws on a definitive execution error, returns whether the
status reached `confirmed`/`finalized`. -/
def confirmationCheckBody (url : String) (f : StatusFetch) : Except String Bool :=
  match f with
  | .netError m => .error m
  | .ok none => .ok false
  | .ok (some sv) =>
    match sv.err with
    | some errJson => .error ("Transaction failed on " ++ url ++ ": " ++ errJson)
    | none =>
      let isConfirmed :=
        sv.confirmationStatus == some "confirmed" ||
        sv.confirmationStatus == some "finalized"
      if isConfirmed then .ok true else .ok false

/-- The settled result of one check promise. The closure contains its own
`try`/`catch` whose catch returns `false`, so every promise fulfills: the
settled result is always `.ok`, never `.error`. -/
def settledConfirmationCheck (url : String) (f : StatusFetch) : Except String Bool :=
  .ok (match confirmationCheckBody url f with
       | .ok b => b
       | .error _ => false)

/-- Embeds `SteroidTransaction.pollForConfirmation`: fans a status query out to the
first `min(nodesToCheck, endpoints.length)` endpoints, scans the settled
results for a rejection whose message includes `Transaction failed` (rethrown
as-is), and otherwise reports whether any endpoint returned `true`. -/
def pollForConfirmation (endpoints : List (String × StatusFetch))
    (nodesToCheck : Nat) : Except String Bool :=
  let endpointsToCheck := endpoints.take (min nodesToCheck endpoints.length)
  let results := endpointsToCheck.map (fun p => settledConfirmationCheck p.1 p.2)
  match results.find? (fun r =>
      match r with
      | .error m => strIncludes m "Transaction failed"
      | .ok _ => false) with
  | some (.error m) => .error m
  | _ => .ok (results.any (fun r =>
      match r with
      | .ok true => true
      | _ => false))

/-- An endpoint status report carrying a definitive execution error. -/
def reportsExecutionError : StatusFetch → Bool
  | .ok (some sv) => sv.err.isSome
  | _ => false

/-- An endpoint status report that reports the target confirmation depth. -/
def reportsConfirmed : StatusFetch → Bool
  | .ok (some sv) =>
    sv.confirmationStatus == some "confirmed" ||
    sv.confirmationStatus == some "finalized"
  | _ => false

/-- Blockhash context returned by `getLatestBlockhash`. -/
structure BlockhashInfo where
  blockhash : String
  lastValidBlockHeight : Int
  deriving DecidableEq, Repr

/-- The payload: a legacy transaction (structurally carrying the
`recentBlockhash`/`lastValidBlockHeight` fields) or a versioned transaction. -/
inductive TxModel where
  | legacy (recentBlockhash : Option String) (lastValidBlockHeight : Option Int)
  | versioned
  deriving DecidableEq, Repr

/-- Embeds `isLegacyTransaction` from `solanaUtils.ts` (`'recentBlockhash' in tx`). -/
def isLegacyTransaction : TxModel → Bool
  | .legacy _ _ => true
  | .versioned => false

/-- The two field assignments `transaction.recentBlockhash = ...` and
`transaction.lastValidBlockHeight = ...` (only ever performed on legacy
transactions, inside `isLegacyTransaction` guards). -/
def applyBlockhash (tx : TxModel) (bh : BlockhashInfo) : TxModel :=
  match tx with
  | .legacy _ _ => .legacy (some bh.blockhash) (some bh.lastValidBlockHeight)
  | .versioned => .versioned

/-- Embeds `SteroidTransaction.getFreshBlockhash`: wraps a fetch failure. -/
def getFreshBlockhash (fetch : Except String BlockhashInfo) : Except String BlockhashInfo :=
  match fetch with
  | .ok bh => .ok bh
  | .error m => .error ("[SteroidTransaction] Failed to get blockhash: " ++ m)

/-- The merged send options (defaults from `DEFAULT_CONFIG.TRANSACTION` plus
`skipPreflight: false, preflightCommitment: 'processed'`). The commitment
fields do not influence the modelled behaviour but are kept for fidelity. -/
structure SteroidSendOptions where
  timeoutSeconds : Nat := 60
  retryInterval : Nat := 2000
  skipPreflight : Bool := false
  preflightCommitment : String := "processed"
  confirmationCommitment : String := "confirmed"
  maxBlockhashAge : Int := 60
  confirmationNodes : Nat := 3
  deriving DecidableEq, Repr

/-- Environment of one iteration of the send/retry loop: the clock at the top
of the iteration, the blockhash fetched if the iteration refreshes, the
outcome of `sendRawTransaction`, and the per-endpoint `getSignatureStatus`
outcomes (zipped against the endpoint list) for the confirmation poll. -/
structure IterEnv where
  now : Int
  freshBlockhash : Except String BlockhashInfo
  sendOutcome : Except ErrorInfo String
  statuses : List StatusFetch
  deriving Repr

/-- Environment of one `sendAndConfirm` call. `initialNow` is the clock at
entry; `iterations` lists the loop iterations the wall-clock deadline permits
(the deadline check fails exactly when the list is exhausted). -/
structure TxEnv where
  simulation : Except String SimulationValue
  initialBlockhash : Except String BlockhashInfo
  initialNow : Int
  iterations : List IterEnv
  deriving Repr

/-- The loop variables of `sendAndConfirm`, plus ghost counters for broadcast
calls, blockhash fetch calls, and transaction field assignments. -/
structure LoopSt where
  tx : TxModel
  signature : String
  lastBlockhashRefresh : Int
  attempts : Nat
  info : TransactionStateInfo
  broadcastCount : Nat
  blockhashFetchCount : Nat
  txFieldWrites : Nat
  deriving Repr

/-- Result of one loop iteration: the loop returns with a signature, or
continues with the updated state. -/
inductive IterStep where
  | finished (sig : String) (st : LoopSt)
  | next (st : LoopSt)
  deriving Repr

/-- The `catch` at the bottom of the loop body: a blockhash-expiration error
forces a refresh on the next iteration; any other error is only logged. -/
def loopCatch (st : LoopSt) (e : ErrorInfo) : LoopSt :=
  if isBlockhashExpiredError e then { st with lastBlockhashRefresh := 0 } else st

/-- The blockhash freshness check and refresh at the top of each loop
iteration (only when the blockhash is stale and the payload is legacy). The
age test `(now - lastBlockhashRefresh) / 1000 > maxBlockhashAge` is written
in milliseconds (`now - lastBlockhashRefresh > 1000 * maxBlockhashAge`),
which is equivalent over the exact reals the source approximates. A fetch
failure is thrown into the loop catch. -/
def refreshPhase (opts : SteroidSendOptions) (it : IterEnv) (st : LoopSt) :
    Except ErrorInfo LoopSt :=
  if 1000 * opts.maxBlockhashAge < it.now - st.lastBlockhashRefresh ∧
      isLegacyTransaction st.tx = true then
    let st1 := { st with blockhashFetchCount := st.blockhashFetchCount + 1 }
    match getFreshBlockhash it.freshBlockhash with
    | .error m => .error ⟨m, 0⟩
    | .ok bh =>
      .ok { st1 with
        tx := applyBlockhash st1.tx bh
        txFieldWrites := st1.txFieldWrites + 2
        lastBlockhashRefresh := it.now }
  else .ok st

/-- The broadcast and confirmation-poll part of one loop iteration. -/
def sendPhase (endpoints : List String) (opts : SteroidSendOptions)
    (it : IterEnv) (st1 : LoopSt) : IterStep :=
  let st2 := { st1 with broadcastCount := st1.broadcastCount + 1 }
  match it.sendOutcome with
  | .error sendError =>
    if isBlockhashExpiredError sendError then
      -- `continue`: force refresh next iteration, skip the sleep
      .next { st2 with lastBlockhashRefresh := 0 }
    else
      -- rethrown, caught by the loop catch
      .next (loopCatch st2 sendError)
  | .ok sig =>
    let st3 := { st2 with
      signature := sig
      info := updateState st2.info .SENT (some sig) none }
    match pollForConfirmation (endpoints.zip it.statuses) opts.confirmationNodes with
    | .error m => .next (loopCatch st3 ⟨m, 0⟩)
    | .ok true =>
      let st4 := { st3 with
        info := { updateState st3.info .CONFIRMED (some st3.signature) none with
          confirmedAt := some it.now } }
      .finished st3.signature st4
    | .ok false => .next st3

/-- One iteration of the send/retry loop of `sendAndConfirm`: bump the
attempt counters, refresh the blockhash when stale, then broadcast and poll.
A throw from the refresh lands in the loop catch. -/
def runIteration (endpoints : List String) (opts : SteroidSendOptions)
    (it : IterEnv) (st0 : LoopSt) : IterStep :=
  let st := { st0 with
    attempts := st0.attempts + 1
    info := { st0.info with attempts := st0.attempts + 1, lastAttemptTime := some it.now } }
  match refreshPhase opts it st with
  | .error e => .next (loopCatch { st with blockhashFetchCount := st.blockhashFetchCount + 1 } e)
  | .ok st1 => sendPhase endpoints opts it st1

/-- The send/retry loop: one `IterEnv` per iteration started before the
deadline; an exhausted list is the deadline expiring. -/
def runLoop (endpoints : List String) (opts : SteroidSendOptions) :
    List IterEnv → LoopSt → Option String × LoopSt
  | [], st => (none, st)
  | it :: rest, st =>
    match runIteration endpoints opts it st with
    | .finished sig st2 => (some sig, st2)
    | .next st2 => runLoop endpoints opts rest st2

/-- The result of a `sendAndConfirm` call: the value returned or error thrown,
the final stored `TransactionStateInfo` record, the final payload, and the
ghost counters. -/
structure DeliveryResult where
  result : Except String String
  finalInfo : TransactionStateInfo
  finalTx : TxModel
  broadcastCount : Nat
  blockhashFetchCount : Nat
  txFieldWrites : Nat
  deriving Repr

/-- Steps 1-2 of `sendAndConfirm` (simulation when `skipPreflight` is unset),
returning the record at the point of failure when the simulation throws. -/
def simPhase (info : TransactionStateInfo) (sim : Except String SimulationValue)
    (skip : Bool) : Except (String × TransactionStateInfo) TransactionStateInfo :=
  if skip then .ok info
  else
    let info1 := updateState info .PENDING none none
    match simulateTransaction sim with
    | .error m => .error (m, info1)
    | .ok _ => .ok (updateState info1 .SIMULATED none none)

/-- The initial blockhash setup of `sendAndConfirm` (legacy payloads only);
returns the updated payload together with (fetch count, field-write count). -/
def setupPhase (tx : TxModel) (fetch : Except String BlockhashInfo) :
    Except (String × Nat × Nat) (TxModel × Nat × Nat) :=
  if isLegacyTransaction tx = true then
    match getFreshBlockhash fetch with
    | .error m => .error (m, 1, 0)
    | .ok bh => .ok (applyBlockhash tx bh, 1, 2)
  else .ok (tx, 0, 0)

/-- Embeds `SteroidTransaction.sendAndConfirm`, over the ambient environment `env`
and the endpoint list of the underlying connection. Every throw escaping the
`try` block lands in the outer catch, which overwrites the record status with
`FAILED` and rethrows. -/
def sendAndConfirm (endpoints : List String) (env : TxEnv) (tx : TxModel)
    (opts : SteroidSendOptions) : DeliveryResult :=
  let info0 : TransactionStateInfo :=
    { state := .PENDING, attempts := 0, startTime := env.initialNow }
  match simPhase info0 env.simulation opts.skipPreflight with
  | .error (m, info1) =>
    { result := .error m
      finalInfo := updateState info1 .FAILED info1.signature (some m)
      finalTx := tx
      broadcastCount := 0
      blockhashFetchCount := 0
      txFieldWrites := 0 }
  | .ok info2 =>
    match setupPhase tx env.initialBlockhash with
    | .error (m, fc, wc) =>
      { result := .error m
        finalInfo := updateState info2 .FAILED info2.signature (some m)
        finalTx := tx
        broadcastCount := 0
        blockhashFetchCount := fc
        txFieldWrites := wc }
    | .ok (tx1, fc, wc) =>
      let st0 : LoopSt :=
        { tx := tx1, signature := "", lastBlockhashRefresh := env.initialNow,
          attempts := 0, info := info2, broadcastCount := 0,
          blockhashFetchCount := fc, txFieldWrites := wc }
      match runLoop endpoints opts env.iterations st0 with
      | (some sig, stF) =>
        { result := .ok sig
          finalInfo := stF.info
          finalTx := stF.tx
          broadcastCount := stF.broadcastCount
          blockhashFetchCount := stF.blockhashFetchCount
          txFieldWrites := stF.txFieldWrites }
      | (none, stF) =>
        let errorMsg := "Transaction not confirmed within " ++
          toString opts.timeoutSeconds ++ "s after " ++
          toString stF.info.attempts ++ " attempts"
        let infoE := updateState stF.info .EXPIRED (some stF.signature) (some errorMsg)
        let thrown := "[SteroidTransaction] " ++ errorMsg ++ ". Last signature: " ++
          (if stF.signature = "" then "none" else stF.signature)
        { result := .error thrown
          finalInfo := updateState infoE .FAILED infoE.signature (some thrown)
          finalTx := stF.tx
          broadcastCount := stF.broadcastCount
          blockhashFetchCount := stF.blockhashFetchCount
          txFieldWrites := stF.txFieldWrites }

/-- Whether one loop iteration reaches the confirmed return (a successful
broadcast whose confirmation poll returns true); independent of the loop
state except that a refresh failure can still pre-empt it. -/
def iterConfirms (endpoints : List String) (opts : SteroidSendOptions)
    (it : IterEnv) : Bool :=
  match it.sendOutcome with
  | .ok _ =>
    match pollForConfirmation (endpoints.zip it.statuses) opts.confirmationNodes with
    | .ok true => true
    | _ => false
  | .error _ => false

/-! ## Concrete states used by counterexamples and witnesses -/

/-- Concrete state for the C3 counterexample: three endpoints, the current
index is 2, endpoints 0 and 1 are healthy, endpoint 2 is not. -/
def exConnState : ConnState :=
  { urls := ["a", "b", "c"]
    currentUrlIndex := 2
    healthStatus :=
      [("a", { url := "a", healthy := true, lastChecked := 0 }),
       ("b", { url := "b", healthy := true, lastChecked := 0 }),
       ("c", { url := "c", healthy := false, lastChecked := 0 })]
    failoverCount := 0
    lastFailoverTime := 0 }

/-- Concrete delivery environment: clean simulation, a good initial
blockhash, and a single loop iteration whose broadcast succeeds but whose
confirmation poll finds nothing, so the wall-clock deadline then expires. -/
def envC2 : TxEnv :=
  { simulation := .ok { err := none, logs := none }
    initialBlockhash := .ok { blockhash := "B1", lastValidBlockHeight := 100 }
    initialNow := 0
    iterations :=
      [{ now := 1
         freshBlockhash := .ok { blockhash := "B2", lastValidBlockHeight := 200 }
         sendOutcome := .ok "SIG"
         statuses := [.ok none] }] }

/-- Concrete delivery environment for a versioned payload: a single loop
iteration whose broadcast fails with a blockhash-expiration error. -/
def envC10 : TxEnv :=
  { simulation := .ok { err := none, logs := none }
    initialBlockhash := .error "unused"
    initialNow := 0
    iterations :=
      [{ now := 5
         freshBlockhash := .error "unused"
         sendOutcome := .error ⟨"blockhash not found", 0⟩
         statuses := [] }] }

/-- Concrete delivery environment whose simulation reports an error. -/
def envSim : TxEnv :=
  { simulation := .ok { err := some (.str "boom"), logs := none }
    initialBlockhash := .error "unused"
    initialNow := 0
    iterations := [] }

/-! ## Theorems: backoff and state eviction -/

/-- C6: for every attempt `k ≥ 1` and admissible jitter, the backoff equals
`min(baseDelay * 2^(k-1) + jitter, maxBackoff)`, never exceeds the cap, and is
non-decreasing in `k`. -/
theorem calculateBackoff_formula_cap_mono (base j : ℚ) (k : Nat)
    (hbase : 0 ≤ base) (hk : 1 ≤ k) (hj0 : 0 ≤ j) (hj1 : j < JITTER_MS) :
    calculateBackoff base k j = min (base * 2 ^ (k - 1) + j) MAX_BACKOFF_DELAY_MS ∧
    calculateBackoff base k j ≤ MAX_BACKOFF_DELAY_MS ∧
    calculateBackoff base k j ≤ calculateBackoff base (k + 1) j := by
  refine ⟨rfl, min_le_right _ _, ?_⟩
  unfold calculateBackoff
  simp only [Nat.add_sub_cancel]
  apply min_le_min _ le_rfl
  apply add_le_add_right
  apply mul_le_mul_of_nonneg_left _ hbase
  apply pow_le_pow_right (by norm_num)
  exact Nat.sub_le k 1

/-- Witness for C6 at `base = 500`, `k = 3`, `jitter = 50`. -/
theorem calculateBackoff_formula_cap_mono_witness :
    calculateBackoff 500 3 50 = min ((500 : ℚ) * 2 ^ (3 - 1) + 50) MAX_BACKOFF_DELAY_MS ∧
    calculateBackoff 500 3 50 ≤ MAX_BACKOFF_DELAY_MS ∧
    calculateBackoff 500 3 50 ≤ calculateBackoff 500 (3 + 1) 50 :=
  calculateBackoff_formula_cap_mono 500 50 3 (by norm_num) (by norm_num)
    (by norm_num) (by norm_num [JITTER_MS])

/-- C8: `clearOldStates(maxAgeMs)` removes exactly the entries whose age
`now - startTime` strictly exceeds `maxAgeMs` and leaves every other entry
untouched (same key, same value, same order). -/
theorem clearOldStates_removes_exactly_expired
    (m : List (String × TransactionStateInfo)) (now maxAgeMs : Int) :
    clearOldStates m now maxAgeMs =
      m.filter (fun e => decide (¬ now - e.2.startTime > maxAgeMs)) ∧
    ∀ k v, (k, v) ∈ clearOldStates m now maxAgeMs ↔
      ((k, v) ∈ m ∧ ¬ (now - v.startTime > maxAgeMs)) := by
  have hf : ∀ l : List (String × TransactionStateInfo),
      clearExpiredEntries now maxAgeMs l =
        l.filter (fun e => decide (¬ now - e.2.startTime > maxAgeMs)) := by
    intro l
    induction l with
    | nil => rfl
    | cons e rest ih =>
      by_cases h : now - e.2.startTime > maxAgeMs
      · simp [clearExpiredEntries, h, List.filter, ih]
      · simp [clearExpiredEntries, h, List.filter, ih]
  constructor
  · exact hf m
  · intro k v
    unfold clearOldStates
    rw [hf m]
    simp [List.mem_filter]

/-! ## Theorems: endpoint selection (failover target) -/

theorem firstIndexWhere_some (p : Nat → Bool) :
    ∀ count start i, firstIndexWhere p start count = some i →
      start ≤ i ∧ i < start + count ∧ p i = true ∧
        ∀ j, start ≤ j → j < i → p j = false := by
  intro count
  induction count with
  | zero =>
    intro start i h
    simp [firstIndexWhere] at h
  | succ n ih =>
    intro start i h
    unfold firstIndexWhere at h
    by_cases hp : p start = true
    · rw [if_pos hp] at h
      cases h
      exact ⟨le_rfl, by omega, hp, fun j h1 h2 => absurd h1 (by omega)⟩
    · rw [if_neg hp] at h
      obtain ⟨h1, h2, h3, h4⟩ := ih (start + 1) i h
      refine ⟨by omega, by omega, h3, ?_⟩
      intro j hj1 hj2
      rcases Nat.eq_or_lt_of_le hj1 with heq | hlt
      · rw [← heq]
        exact Bool.not_eq_true _ ▸ (by simpa using hp)
      · exact h4 j (by omega) hj2

theorem firstIndexWhere_none (p : Nat → Bool) :
    ∀ count start, firstIndexWhere p start count = none →
      ∀ j, start ≤ j → j < start + count → p j = false := by
  intro count
  induction count with
  | zero =>
    intro start _ j hj1 hj2
    omega
  | succ n ih =>
    intro start h j hj1 hj2
    unfold firstIndexWhere at h
    by_cases hp : p start = true
    · rw [if_pos hp] at h
      cases h
    · rw [if_neg hp] at h
      rcases Nat.eq_or_lt_of_le hj1 with heq | hlt
      · rw [← heq]
        simpa using hp
      · exact ih (start + 1) h j (by omega) (by omega)

/-- C3 (amended): the failover target returned by `findNextAvailableRpcIndex`
is the nearest healthy endpoint strictly after the current index in circular
order, with no regard to the set of endpoints already attempted; only when no
endpoint at all is healthy does it fall back to the immediate next index. -/
theorem findNextAvailableRpcIndex_characterization (s : ConnState) :
    (∃ i, i < s.urls.length ∧
        findNextAvailableRpcIndex s = (startIndexOf s + i) % s.urls.length ∧
        healthyAt s ((startIndexOf s + i) % s.urls.length) = true ∧
        ∀ j, j < i → healthyAt s ((startIndexOf s + j) % s.urls.length) = false) ∨
    ((∀ j, j < s.urls.length →
        healthyAt s ((startIndexOf s + j) % s.urls.length) = false) ∧
      findNextAvailableRpcIndex s = startIndexOf s) := by
  unfold findNextAvailableRpcIndex
  rcases hfw : firstIndexWhere
      (fun i => healthyAt s ((startIndexOf s + i) % s.urls.length)) 0 s.urls.length
    with _ | i
  · right
    refine ⟨?_, rfl⟩
    intro j hj
    exact firstIndexWhere_none _ _ _ hfw j (Nat.zero_le j) (by omega)
  · left
    obtain ⟨h1, h2, h3, h4⟩ := firstIndexWhere_some _ _ _ _ hfw
    exact ⟨i, by omega, rfl, h3, fun j hj => h4 j (Nat.zero_le j) hj⟩

/-- C3 counterexample: with endpoints 0 and 2 already attempted in this
invocation, the implementation still selects endpoint 0 (the nearest healthy
endpoint, attempted or not), while the claimed selection rule requires
endpoint 1 (the nearest healthy endpoint outside the excluding set). -/
theorem findNextAvailableRpcIndex_ignores_attempted :
    findNextAvailableRpcIndex exConnState = 0 ∧
    selectNextSpec exConnState [0, 2] = 1 ∧
    List.contains [0, 2] (findNextAvailableRpcIndex exConnState) = true ∧
    ¬ findNextAvailableRpcIndex exConnState = selectNextSpec exConnState [0, 2] := by
  decide

/-! ## Theorems: resilient invocation -/

theorem executeGo_failure_step (env : Nat → Nat → CallOutcome) (times : Nat → Int)
    (mn : String) (mr fuel attempt : Nat) (s : ConnState) (att : List Nat)
    (le : Option ErrorInfo) (e : ErrorInfo)
    (henv : env attempt s.currentUrlIndex = .failure e) :
    executeGo env times mn mr (fuel + 1) attempt s att le =
      (let attempted1 := insertAttempted att s.currentUrlIndex
       let hr := handleExecutionError s e attempted1 (times attempt)
       if hr.1 then
         executeGo env times mn mr fuel (attempt + 1) hr.2 attempted1 (some e)
       else
         { result := .error (enhanceError hr.2 e mn (attempt + 1))
           finalState := hr.2
           attemptsMade := attempt + 1
           lastError := some e }) := by
  simp only [executeGo, henv]

theorem executeGo_success_step (env : Nat → Nat → CallOutcome) (times : Nat → Int)
    (mn : String) (mr fuel attempt : Nat) (s : ConnState) (att : List Nat)
    (le : Option ErrorInfo) (v : String)
    (henv : env attempt s.currentUrlIndex = .success v) :
    executeGo env times mn mr (fuel + 1) attempt s att le =
      { result := .ok v
        finalState := { s with
          healthStatus := updateHealthStatus s.healthStatus (getActiveEndpoint s)
            true (times attempt) none }
        attemptsMade := attempt + 1
        lastError := le } := by
  simp only [executeGo, henv]

theorem lookupHealth_initHealthStatus (urls : List String) (t : Int) (u : String)
    (h : u ∈ urls) :
    lookupHealth (initHealthStatus urls t) u =
      some { url := u, healthy := true, lastChecked := t } := by
  induction urls with
  | nil => cases h
  | cons a rest ih =>
    by_cases ha : a = u
    · subst ha
      simp [initHealthStatus, lookupHealth]
    · rcases List.mem_cons.mp h with heq | hmem
      · exact absurd heq.symm ha
      · simpa [initHealthStatus, lookupHealth, ha] using ih hmem

theorem lookupHealth_updateHealthStatus_ne (hs : List (String × RPCHealth))
    (url u : String) (b : Bool) (t : Int) (l : Option Int) (h : ¬ u = url) :
    lookupHealth (updateHealthStatus hs url b t l) u = lookupHealth hs u := by
  induction hs with
  | nil => rfl
  | cons p rest ih =>
    obtain ⟨k, w⟩ := p
    simp only [updateHealthStatus, List.map_cons] at ih ⊢
    by_cases hk : k = url
    · rw [if_pos hk]
      have hku : ¬ k = u := fun hc => h (hc ▸ hk)
      rw [lookupHealth, lookupHealth, if_neg hku, if_neg hku]
      exact ih
    · rw [if_neg hk]
      by_cases hku : k = u
      · rw [lookupHealth, lookupHealth, if_pos hku, if_pos hku]
      · rw [lookupHealth, lookupHealth, if_neg hku, if_neg hku]
        exact ih

theorem lookupHealth_updateHealthStatus_eq (hs : List (String × RPCHealth))
    (url : String) (b : Bool) (t : Int) (l : Option Int) :
    lookupHealth (updateHealthStatus hs url b t l) url =
      (lookupHealth hs url).map (fun h0 =>
        { h0 with
          healthy := b
          lastChecked := t
          latency := match l with | some x => some x | none => h0.latency }) := by
  induction hs with
  | nil => rfl
  | cons p rest ih =>
    obtain ⟨k, w⟩ := p
    simp only [updateHealthStatus, List.map_cons] at ih ⊢
    by_cases hk : k = url
    · rw [if_pos hk]
      rw [lookupHealth, lookupHealth, if_pos hk, if_pos hk]
      rfl
    · rw [if_neg hk]
      rw [lookupHealth, lookupHealth, if_neg hk, if_neg hk]
      exact ih

theorem firstIndexWhere_head_true (p : Nat → Bool) (start count : Nat)
    (hc : 1 ≤ count) (hp : p start = true) :
    firstIndexWhere p start count = some start := by
  cases count with
  | zero => omega
  | succ n => simp [firstIndexWhere, hp]

theorem executeGo_all_fail (env : Nat → Nat → CallOutcome) (times : Nat → Int)
    (mn : String) (mr : Nat)
    (hfail : ∀ a j, ∃ e, env a j = .failure e) :
    ∀ fuel attempt s att le, fuel + attempt = mr →
      ((∃ e0, le = some e0) ∨ 1 ≤ fuel) →
      ∃ e, (executeGo env times mn mr fuel attempt s att le).lastError = some e ∧
        (executeGo env times mn mr fuel attempt s att le).result =
          .error (enhanceError (executeGo env times mn mr fuel attempt s att le).finalState
            e mn (executeGo env times mn mr fuel attempt s att le).attemptsMade) := by
  intro fuel
  induction fuel with
  | zero =>
    intro attempt s att le hinv hle
    rcases hle with ⟨e0, rfl⟩ | hge
    · refine ⟨e0, rfl, ?_⟩
      simp only [executeGo, Option.getD_some]
      have : attempt = mr := by omega
      rw [this]
    · omega
  | succ n ih =>
    intro attempt s att le hinv _
    obtain ⟨e, he⟩ := hfail attempt s.currentUrlIndex
    rw [executeGo_failure_step env times mn mr n attempt s att le e he]
    simp only
    by_cases hr :
        (handleExecutionError s e (insertAttempted att s.currentUrlIndex) (times attempt)).1 = true
    · rw [if_pos hr]
      exact ih (attempt + 1)
        (handleExecutionError s e (insertAttempted att s.currentUrlIndex) (times attempt)).2
        (insertAttempted att s.currentUrlIndex) (some e) (by omega) (Or.inl ⟨e, rfl⟩)
    · rw [if_neg hr]
      exact ⟨e, rfl, rfl⟩

theorem findNextAvailableRpcIndex_of_head_healthy (s : ConnState)
    (hlen : 1 ≤ s.urls.length)
    (hp : healthyAt s ((startIndexOf s + 0) % s.urls.length) = true) :
    findNextAvailableRpcIndex s = (startIndexOf s + 0) % s.urls.length := by
  unfold findNextAvailableRpcIndex
  rw [firstIndexWhere_head_true
    (fun k => healthyAt s ((startIndexOf s + k) % s.urls.length)) 0 s.urls.length hlen hp]

theorem healthyAt_eq (s : ConnState) (j : Nat) (hj : j < s.urls.length) :
    healthyAt s j =
      ((lookupHealth s.healthStatus (s.urls.get ⟨j, hj⟩)).map RPCHealth.healthy).getD false := by
  unfold healthyAt
  rw [List.get?_eq_get hj]
  show (match lookupHealth s.healthStatus (s.urls.get ⟨j, hj⟩) with
        | some h => h.healthy
        | none => false) = _
  cases lookupHealth s.healthStatus (s.urls.get ⟨j, hj⟩) <;> rfl

/-- C5: with endpoint `i` active and every endpoint healthy, a node-failure
class error on endpoint `i` followed by a success on endpoint `i + 1` makes
the resilient invoke return the success value, mark endpoint `i` unhealthy,
and increment the failover counter by exactly one. -/
theorem executeWithResilience_failover_success
    (urls : List String) (i : Nat) (hnd : urls.Nodup) (hi : i + 1 < urls.length)
    (maxRetries : Nat) (hm : 2 ≤ maxRetries)
    (e : ErrorInfo) (hen : isNodeFailure e = true) (het : isTransientError e = false)
    (v : String) (t0 lf : Int) (c : Nat)
    (env : Nat → Nat → CallOutcome) (times : Nat → Int) (methodName : String)
    (henv0 : env 0 i = .failure e) (henv1 : env 1 (i + 1) = .success v) :
    (executeWithResilience env times methodName maxRetries
      { urls := urls, currentUrlIndex := i, healthStatus := initHealthStatus urls t0,
        failoverCount := c, lastFailoverTime := lf }).result = .ok v ∧
    (lookupHealth (executeWithResilience env times methodName maxRetries
        { urls := urls, currentUrlIndex := i, healthStatus := initHealthStatus urls t0,
          failoverCount := c, lastFailoverTime := lf }).finalState.healthStatus
      (urls.getD i "")).map RPCHealth.healthy = some false ∧
    (executeWithResilience env times methodName maxRetries
      { urls := urls, currentUrlIndex := i, healthStatus := initHealthStatus urls t0,
        failoverCount := c, lastFailoverTime := lf }).finalState.failoverCount = c + 1 := by
  obtain ⟨m, rfl⟩ : ∃ m, maxRetries = m + 2 := ⟨maxRetries - 2, by omega⟩
  have hiu : i < urls.length := by omega
  have hlen : 1 < urls.length := by omega
  have hne : ¬ urls.get ⟨i + 1, hi⟩ = urls.getD i "" := by
    rw [List.getD_eq_get urls "" hiu]
    intro hc
    have h2 := (List.Nodup.get_inj_iff hnd).mp hc
    simp at h2
  have hmem0 : urls.getD i "" ∈ urls := by
    rw [List.getD_eq_get urls "" hiu]
    exact List.get_mem urls i hiu
  -- state after marking endpoint i unhealthy
  have hhr : handleExecutionError
      { urls := urls, currentUrlIndex := i, healthStatus := initHealthStatus urls t0,
        failoverCount := c, lastFailoverTime := lf } e [i] (times 0) =
      (true, switchToNextRpc
        { urls := urls, currentUrlIndex := i,
          healthStatus := updateHealthStatus (initHealthStatus urls t0)
            (urls.getD i "") false (times 0) none,
          failoverCount := c, lastFailoverTime := lf } (times 0)) := by
    simp [handleExecutionError, het, hen, hlen]
  -- the failover target is endpoint i + 1
  have hh1 : healthyAt
      { urls := urls, currentUrlIndex := i,
        healthStatus := updateHealthStatus (initHealthStatus urls t0)
          (urls.getD i "") false (times 0) none,
        failoverCount := c, lastFailoverTime := lf } (i + 1) = true := by
    rw [healthyAt_eq _ _ hi]
    rw [lookupHealth_updateHealthStatus_ne _ _ _ _ _ _ hne]
    rw [lookupHealth_initHealthStatus urls t0 _ (List.get_mem urls (i + 1) hi)]
    rfl
  have hfind : findNextAvailableRpcIndex
      { urls := urls, currentUrlIndex := i,
        healthStatus := updateHealthStatus (initHealthStatus urls t0)
          (urls.getD i "") false (times 0) none,
        failoverCount := c, lastFailoverTime := lf } = i + 1 := by
    have hstart : startIndexOf
        { urls := urls, currentUrlIndex := i,
          healthStatus := updateHealthStatus (initHealthStatus urls t0)
            (urls.getD i "") false (times 0) none,
          failoverCount := c, lastFailoverTime := lf } = i + 1 := by
      unfold startIndexOf
      exact Nat.mod_eq_of_lt hi
    have h0 : (startIndexOf
        { urls := urls, currentUrlIndex := i,
          healthStatus := updateHealthStatus (initHealthStatus urls t0)
            (urls.getD i "") false (times 0) none,
          failoverCount := c, lastFailoverTime := lf } + 0) %
        (ConnState.urls
          { urls := urls, currentUrlIndex := i,
            healthStatus := updateHealthStatus (initHealthStatus urls t0)
              (urls.getD i "") false (times 0) none,
            failoverCount := c, lastFailoverTime := lf }).length = i + 1 := by
      rw [hstart]
      simpa using Nat.mod_eq_of_lt hi
    rw [findNextAvailableRpcIndex_of_head_healthy _ (by simpa using (by omega : 1 ≤ urls.length))
      (by rw [h0]; exact hh1)]
    exact h0
  have hsw : switchToNextRpc
      { urls := urls, currentUrlIndex := i,
        healthStatus := updateHealthStatus (initHealthStatus urls t0)
          (urls.getD i "") false (times 0) none,
        failoverCount := c, lastFailoverTime := lf } (times 0) =
      { urls := urls, currentUrlIndex := i + 1,
        healthStatus := updateHealthStatus (initHealthStatus urls t0)
          (urls.getD i "") false (times 0) none,
        failoverCount := c + 1, lastFailoverTime := times 0 } := by
    unfold switchToNextRpc
    rw [hfind]
  have hrun : executeWithResilience env times methodName (m + 2)
      { urls := urls, currentUrlIndex := i, healthStatus := initHealthStatus urls t0,
        failoverCount := c, lastFailoverTime := lf } =
      { result := .ok v,
        finalState :=
          { urls := urls, currentUrlIndex := i + 1,
            healthStatus := updateHealthStatus
              (updateHealthStatus (initHealthStatus urls t0)
                (urls.getD i "") false (times 0) none)
              (urls.getD (i + 1) "") true (times 1) none,
            failoverCount := c + 1, lastFailoverTime := times 0 },
        attemptsMade := 2,
        lastError := some e } := by
    unfold executeWithResilience
    rw [executeGo_failure_step env times methodName (m + 2) (m + 1) 0 _ [] none e henv0]
    simp only [insertAttempted, List.contains, List.elem, if_neg Bool.false_ne_true]
    rw [hhr, hsw]
    simp only [if_pos rfl]
    rw [executeGo_success_step env times methodName (m + 2) m 1 _ [i] (some e) v henv1]
    rfl
  rw [hrun]
  refine ⟨rfl, ?_, rfl⟩
  have hne2 : ¬ urls.getD i "" = urls.getD (i + 1) "" := by
    rw [List.getD_eq_get urls "" hi]
    exact fun hc => hne hc.symm
  rw [lookupHealth_updateHealthStatus_ne _ _ _ _ _ _ hne2]
  rw [lookupHealth_updateHealthStatus_eq]
  rw [lookupHealth_initHealthStatus urls t0 _ hmem0]
  rfl

/-- Witness for C5: two endpoints, a node failure (`"fetch failed"`) on
endpoint 0 at attempt 0, success on endpoint 1 at attempt 1. -/
theorem executeWithResilience_failover_success_witness :
    (executeWithResilience
      (fun a _ => if a = 0 then .failure ⟨"fetch failed", 0⟩ else .success "ok")
      (fun _ => 0) "getSlot" 2
      { urls := ["u0", "u1"], currentUrlIndex := 0,
        healthStatus := initHealthStatus ["u0", "u1"] 0,
        failoverCount := 0, lastFailoverTime := 0 }).result = .ok "ok" ∧
    (lookupHealth (executeWithResilience
        (fun a _ => if a = 0 then .failure ⟨"fetch failed", 0⟩ else .success "ok")
        (fun _ => 0) "getSlot" 2
        { urls := ["u0", "u1"], currentUrlIndex := 0,
          healthStatus := initHealthStatus ["u0", "u1"] 0,
          failoverCount := 0, lastFailoverTime := 0 }).finalState.healthStatus
      (["u0", "u1"].getD 0 "")).map RPCHealth.healthy = some false ∧
    (executeWithResilience
      (fun a _ => if a = 0 then .failure ⟨"fetch failed", 0⟩ else .success "ok")
      (fun _ => 0) "getSlot" 2
      { urls := ["u0", "u1"], currentUrlIndex := 0,
        healthStatus := initHealthStatus ["u0", "u1"] 0,
        failoverCount := 0, lastFailoverTime := 0 }).finalState.failoverCount = 0 + 1 :=
  executeWithResilience_failover_success ["u0", "u1"] 0 (by decide) (by decide) 2
    (by decide) ⟨"fetch failed", 0⟩ (by decide) (by decide) "ok" 0 0 0
    (fun a _ => if a = 0 then .failure ⟨"fetch failed", 0⟩ else .success "ok")
    (fun _ => 0) "getSlot" rfl rfl

/-- C9: if every attempt fails (no call ever succeeds), the resilient invoke
raises the enriched error built from the last observed failure; the error
carries the method name, the number of attempts performed, and the URL of the
endpoint active when the loop stopped. -/
theorem executeWithResilience_exhaustion_enriched (env : Nat → Nat → CallOutcome)
    (times : Nat → Int) (methodName : String) (maxRetries : Nat) (s0 : ConnState)
    (hm : 1 ≤ maxRetries) (hfail : ∀ a j, ∃ e, env a j = .failure e) :
    ∃ e, (executeWithResilience env times methodName maxRetries s0).lastError = some e ∧
      (executeWithResilience env times methodName maxRetries s0).result =
        .error (enhanceError
          (executeWithResilience env times methodName maxRetries s0).finalState
          e methodName
          (executeWithResilience env times methodName maxRetries s0).attemptsMade) ∧
      (enhanceError (executeWithResilience env times methodName maxRetries s0).finalState
          e methodName
          (executeWithResilience env times methodName maxRetries s0).attemptsMade).methodName
        = methodName ∧
      (enhanceError (executeWithResilience env times methodName maxRetries s0).finalState
          e methodName
          (executeWithResilience env times methodName maxRetries s0).attemptsMade).attempts
        = (executeWithResilience env times methodName maxRetries s0).attemptsMade ∧
      (enhanceError (executeWithResilience env times methodName maxRetries s0).finalState
          e methodName
          (executeWithResilience env times methodName maxRetries s0).attemptsMade).currentUrl
        = getActiveEndpoint (executeWithResilience env times methodName maxRetries s0).finalState ∧
      (enhanceError (executeWithResilience env times methodName maxRetries s0).finalState
          e methodName
          (executeWithResilience env times methodName maxRetries s0).attemptsMade).originalError
        = e := by
  obtain ⟨e, h1, h2⟩ :=
    executeGo_all_fail env times methodName maxRetries hfail maxRetries 0 s0 [] none
      (by omega) (Or.inr hm)
  exact ⟨e, h1, h2, rfl, rfl, rfl, rfl⟩

/-- Witness for C9: a single endpoint that always fails with a plain error;
`maxRetries = 1`. -/
theorem executeWithResilience_exhaustion_enriched_witness :
    ∃ e, (executeWithResilience (fun _ _ => .failure ⟨"boom", 0⟩) (fun _ => 0) "getSlot" 1
        { urls := ["u"], currentUrlIndex := 0,
          healthStatus := initHealthStatus ["u"] 0,
          failoverCount := 0, lastFailoverTime := 0 }).lastError = some e ∧
      (executeWithResilience (fun _ _ => .failure ⟨"boom", 0⟩) (fun _ => 0) "getSlot" 1
        { urls := ["u"], currentUrlIndex := 0,
          healthStatus := initHealthStatus ["u"] 0,
          failoverCount := 0, lastFailoverTime := 0 }).result =
        .error (enhanceError
          (executeWithResilience (fun _ _ => .failure ⟨"boom", 0⟩) (fun _ => 0) "getSlot" 1
            { urls := ["u"], currentUrlIndex := 0,
              healthStatus := initHealthStatus ["u"] 0,
              failoverCount := 0, lastFailoverTime := 0 }).finalState
          e "getSlot"
          (executeWithResilience (fun _ _ => .failure ⟨"boom", 0⟩) (fun _ => 0) "getSlot" 1
            { urls := ["u"], currentUrlIndex := 0,
              healthStatus := initHealthStatus ["u"] 0,
              failoverCount := 0, lastFailoverTime := 0 }).attemptsMade) ∧
      (enhanceError
          (executeWithResilience (fun _ _ => .failure ⟨"boom", 0⟩) (fun _ => 0) "getSlot" 1
            { urls := ["u"], currentUrlIndex := 0,
              healthStatus := initHealthStatus ["u"] 0,
              failoverCount := 0, lastFailoverTime := 0 }).finalState
          e "getSlot"
          (executeWithResilience (fun _ _ => .failure ⟨"boom", 0⟩) (fun _ => 0) "getSlot" 1
            { urls := ["u"], currentUrlIndex := 0,
              healthStatus := initHealthStatus ["u"] 0,
              failoverCount := 0, lastFailoverTime := 0 }).attemptsMade).methodName = "getSlot" ∧
      (enhanceError
          (executeWithResilience (fun _ _ => .failure ⟨"boom", 0⟩) (fun _ => 0) "getSlot" 1
            { urls := ["u"], currentUrlIndex := 0,
              healthStatus := initHealthStatus ["u"] 0,
              failoverCount := 0, lastFailoverTime := 0 }).finalState
          e "getSlot"
          (executeWithResilience (fun _ _ => .failure ⟨"boom", 0⟩) (fun _ => 0) "getSlot" 1
            { urls := ["u"], currentUrlIndex := 0,
              healthStatus := initHealthStatus ["u"] 0,
              failoverCount := 0, lastFailoverTime := 0 }).attemptsMade).attempts =
        (executeWithResilience (fun _ _ => .failure ⟨"boom", 0⟩) (fun _ => 0) "getSlot" 1
            { urls := ["u"], currentUrlIndex := 0,
              healthStatus := initHealthStatus ["u"] 0,
              failoverCount := 0, lastFailoverTime := 0 }).attemptsMade ∧
      (enhanceError
          (executeWithResilience (fun _ _ => .failure ⟨"boom", 0⟩) (fun _ => 0) "getSlot" 1
            { urls := ["u"], currentUrlIndex := 0,
              healthStatus := initHealthStatus ["u"] 0,
              failoverCount := 0, lastFailoverTime := 0 }).finalState
          e "getSlot"
          (executeWithResilience (fun _ _ => .failure ⟨"boom", 0⟩) (fun _ => 0) "getSlot" 1
            { urls := ["u"], currentUrlIndex := 0,
              healthStatus := initHealthStatus ["u"] 0,
              failoverCount := 0, lastFailoverTime := 0 }).attemptsMade).currentUrl =
        getActiveEndpoint
          (executeWithResilience (fun _ _ => .failure ⟨"boom", 0⟩) (fun _ => 0) "getSlot" 1
            { urls := ["u"], currentUrlIndex := 0,
              healthStatus := initHealthStatus ["u"] 0,
              failoverCount := 0, lastFailoverTime := 0 }).finalState ∧
      (enhanceError
          (executeWithResilience (fun _ _ => .failure ⟨"boom", 0⟩) (fun _ => 0) "getSlot" 1
            { urls := ["u"], currentUrlIndex := 0,
              healthStatus := initHealthStatus ["u"] 0,
              failoverCount := 0, lastFailoverTime := 0 }).finalState
          e "getSlot"
          (executeWithResilience (fun _ _ => .failure ⟨"boom", 0⟩) (fun _ => 0) "getSlot" 1
            { urls := ["u"], currentUrlIndex := 0,
              healthStatus := initHealthStatus ["u"] 0,
              failoverCount := 0, lastFailoverTime := 0 }).attemptsMade).originalError = e :=
  executeWithResilience_exhaustion_enriched (fun _ _ => .failure ⟨"boom", 0⟩) (fun _ => 0)
    "getSlot" 1
    { urls := ["u"], currentUrlIndex := 0,
      healthStatus := initHealthStatus ["u"] 0,
      failoverCount := 0, lastFailoverTime := 0 }
    (by omega) (fun a j => ⟨⟨"boom", 0⟩, rfl⟩)

/-! ## Theorems: confirmation polling -/

/-- C1 (code bug): the claimed fail-fast never happens. Every per-endpoint
check catches its own `Transaction failed` throw and fulfills with `false`,
so the rejection scan is dead code and `pollForConfirmation` returns a
boolean even when an endpoint reports a definitive execution error: it never
rejects at all, and at the concrete failing input (endpoint 1 reporting an
execution error) it returns `.ok true` or `.ok false` according to the other
endpoints instead of propagating the error. -/
theorem pollForConfirmation_swallows_definitive_error :
    (∀ (endpoints : List (String × StatusFetch)) (n : Nat),
      ∃ b, pollForConfirmation endpoints n = Except.ok b) ∧
    pollForConfirmation
      [("u1", .ok (some { err := some "InstructionError", confirmationStatus := none })),
       ("u2", .ok (some { err := none, confirmationStatus := some "confirmed" })),
       ("u3", .ok none)] 3 = .ok true ∧
    pollForConfirmation
      [("u1", .ok (some { err := some "InstructionError", confirmationStatus := none })),
       ("u2", .ok none),
       ("u3", .ok none)] 3 = .ok false := by
  refine ⟨?_, rfl, rfl⟩
  intro endpoints n
  refine ⟨((endpoints.take (min n endpoints.length)).map
      (fun p => settledConfirmationCheck p.1 p.2)).any (fun r =>
        match r with
        | .ok true => true
        | _ => false), ?_⟩
  unfold pollForConfirmation
  have hfind : ((endpoints.take (min n endpoints.length)).map
      (fun p => settledConfirmationCheck p.1 p.2)).find? (fun r =>
        match r with
        | .error m => strIncludes m "Transaction failed"
        | .ok _ => false) = none := by
    rw [List.find?_eq_none]
    intro r hr
    obtain ⟨p, hp, hrp⟩ := List.mem_map.mp hr
    rw [← hrp]
    simp [settledConfirmationCheck]
  simp only [hfind]

theorem settledConfirmationCheck_of_no_err (url : String) (f : StatusFetch)
    (hf : reportsExecutionError f = false) :
    settledConfirmationCheck url f = .ok (reportsConfirmed f) := by
  cases f with
  | netError m => rfl
  | ok v =>
    cases v with
    | none => rfl
    | some sv =>
      cases hsv : sv.err with
      | some e => simp [reportsExecutionError, hsv] at hf
      | none =>
        cases hb : (sv.confirmationStatus == some "confirmed" ||
            sv.confirmationStatus == some "finalized") <;>
          simp [settledConfirmationCheck, confirmationCheckBody, reportsConfirmed, hsv, hb]

theorem any_okTrue_map (l : List (String × StatusFetch))
    (g : String × StatusFetch → Bool) :
    (l.map (fun p => (Except.ok (g p) : Except String Bool))).any (fun r =>
        match r with
        | .ok true => true
        | _ => false) = l.any g := by
  induction l with
  | nil => rfl
  | cons p rest ih => cases hb : g p <;> simp [List.any_cons, hb, ih]

/-- C7: when no polled endpoint reports a definitive execution error, the
poll returns true exactly when at least one endpoint of the polled prefix
(the first `min(confirmationNodes, endpoints.length)` endpoints) reports the
target confirmation depth; network failures reaching an endpoint count as
not confirmed. -/
theorem pollForConfirmation_quorum (endpoints : List (String × StatusFetch)) (n : Nat)
    (h : ∀ p ∈ endpoints.take (min n endpoints.length),
      reportsExecutionError p.2 = false) :
    pollForConfirmation endpoints n =
      .ok ((endpoints.take (min n endpoints.length)).any
        (fun p => reportsConfirmed p.2)) := by
  unfold pollForConfirmation
  have hmap : (endpoints.take (min n endpoints.length)).map
      (fun p => settledConfirmationCheck p.1 p.2) =
      (endpoints.take (min n endpoints.length)).map
        (fun p => (Except.ok (reportsConfirmed p.2) : Except String Bool)) := by
    apply List.map_congr_left
    intro p hp
    exact settledConfirmationCheck_of_no_err p.1 p.2 (h p hp)
  have hfind : ((endpoints.take (min n endpoints.length)).map
      (fun p => (Except.ok (reportsConfirmed p.2) : Except String Bool))).find? (fun r =>
        match r with
        | .error m => strIncludes m "Transaction failed"
        | .ok _ => false) = none := by
    rw [List.find?_eq_none]
    intro r hr
    obtain ⟨p, hp, hrp⟩ := List.mem_map.mp hr
    rw [← hrp]
    simp
  simp only [hmap, hfind]
  rw [any_okTrue_map]

/-- Witness for C7: three endpoints, exactly one reporting `confirmed`, none
reporting an execution error — the poll returns true. -/
theorem pollForConfirmation_quorum_witness :
    (∀ p ∈ ([("u1", .ok none),
        ("u2", .ok (some { err := none, confirmationStatus := some "confirmed" })),
        ("u3", .netError "timeout")] : List (String × StatusFetch)).take
          (min 3 ([("u1", .ok none),
            ("u2", .ok (some { err := none, confirmationStatus := some "confirmed" })),
            ("u3", .netError "timeout")] : List (String × StatusFetch)).length),
      reportsExecutionError p.2 = false) ∧
    pollForConfirmation
      [("u1", .ok none),
       ("u2", .ok (some { err := none, confirmationStatus := some "confirmed" })),
       ("u3", .netError "timeout")] 3 = .ok true := by
  refine ⟨by decide, ?_⟩
  rw [pollForConfirmation_quorum
    [("u1", .ok none),
     ("u2", .ok (some { err := none, confirmationStatus := some "confirmed" })),
     ("u3", .netError "timeout")] 3 (by decide)]
  rfl

/-! ## Theorems: simulation gate -/

theorem strIncludes_append_left (a x pat : String) (h : strIncludes a pat = true) :
    strIncludes (a ++ x) pat = true := by
  unfold strIncludes at h ⊢
  rw [decide_eq_true_eq] at h ⊢
  obtain ⟨s, t, hst⟩ := h
  refine ⟨s, t ++ x.data, ?_⟩
  rw [String.data_append, ← hst]
  simp

/-- C4: with simulation enabled and the dry run reporting an error,
`sendAndConfirm` rejects with the `Simulation failed` error and the number of
`sendRawTransaction` calls issued is zero. -/
theorem sendAndConfirm_simulation_error_no_broadcast
    (endpoints : List String) (env : TxEnv) (tx : TxModel) (opts : SteroidSendOptions)
    (hsp : opts.skipPreflight = false) (sv : SimulationValue) (e0 : SimErrVal)
    (herr : sv.err = some e0) (hsim : env.simulation = .ok sv) :
    (sendAndConfirm endpoints env tx opts).result =
      .error ("[SteroidTransaction] Simulation failed: " ++ parseSimulationError sv) ∧
    strIncludes ("[SteroidTransaction] Simulation failed: " ++ parseSimulationError sv)
      "Simulation failed" = true ∧
    (sendAndConfirm endpoints env tx opts).broadcastCount = 0 := by
  have hmsg : strIncludes
      ("[SteroidTransaction] Simulation failed: " ++ parseSimulationError sv)
      "Simulation failed" = true :=
    strIncludes_append_left "[SteroidTransaction] Simulation failed: "
      (parseSimulationError sv) "Simulation failed" (by decide)
  have hsimT : simulateTransaction env.simulation =
      .error ("[SteroidTransaction] Simulation failed: " ++ parseSimulationError sv) := by
    rw [hsim]
    unfold simulateTransaction
    simp only [herr, hmsg, if_true]
  have hphase : simPhase
      { state := .PENDING, attempts := 0, startTime := env.initialNow }
      env.simulation opts.skipPreflight =
      .error ("[SteroidTransaction] Simulation failed: " ++ parseSimulationError sv,
        updateState { state := .PENDING, attempts := 0, startTime := env.initialNow }
          .PENDING none none) := by
    rw [hsp]
    unfold simPhase
    simp only [hsimT, if_false, Bool.false_eq_true]
  unfold sendAndConfirm
  simp only [hphase]
  exact ⟨trivial, hmsg, trivial⟩

/-- Witness for C4: a simulation value with a structured error and no logs;
the call rejects with the parsed message and zero broadcasts. -/
theorem sendAndConfirm_simulation_error_no_broadcast_witness :
    (sendAndConfirm ["u1"] envSim (TxModel.legacy none none) {}).result =
      .error ("[SteroidTransaction] Simulation failed: " ++
        parseSimulationError { err := some (.str "boom"), logs := none }) ∧
    strIncludes ("[SteroidTransaction] Simulation failed: " ++
        parseSimulationError { err := some (.str "boom"), logs := none })
      "Simulation failed" = true ∧
    (sendAndConfirm ["u1"] envSim (TxModel.legacy none none) {}).broadcastCount = 0 :=
  sendAndConfirm_simulation_error_no_broadcast ["u1"] envSim (TxModel.legacy none none) {}
    rfl { err := some (.str "boom"), logs := none } (.str "boom") rfl rfl

/-! ## Theorems: delivery loop, deadline and versioned payloads -/

theorem sendPhase_next_of_not_confirms (endpoints : List String)
    (opts : SteroidSendOptions) (it : IterEnv) (st1 : LoopSt)
    (h : iterConfirms endpoints opts it = false) :
    ∃ st2, sendPhase endpoints opts it st1 = .next st2 := by
  unfold sendPhase
  unfold iterConfirms at h
  cases hso : it.sendOutcome with
  | error e =>
    simp only [hso]
    by_cases hb : isBlockhashExpiredError e = true
    · simp only [hb, if_true]
      exact ⟨_, rfl⟩
    · rw [if_neg hb]
      exact ⟨_, rfl⟩
  | ok sig =>
    rw [hso] at h
    simp only [hso]
    cases hpoll : pollForConfirmation (endpoints.zip it.statuses) opts.confirmationNodes with
    | error m =>
      simp only [hpoll]
      exact ⟨_, rfl⟩
    | ok b =>
      cases b with
      | true => rw [hpoll] at h; simp at h
      | false =>
        simp only [hpoll]
        exact ⟨_, rfl⟩

theorem runIteration_next_of_not_confirms (endpoints : List String)
    (opts : SteroidSendOptions) (it : IterEnv) (st0 : LoopSt)
    (h : iterConfirms endpoints opts it = false) :
    ∃ st2, runIteration endpoints opts it st0 = .next st2 := by
  unfold runIteration
  cases hrp : refreshPhase opts it
      { st0 with
        attempts := st0.attempts + 1
        info := { st0.info with
                  attempts := st0.attempts + 1
                  lastAttemptTime := some it.now } } with
  | error e =>
    simp only [hrp]
    exact ⟨_, rfl⟩
  | ok st1 =>
    simp only [hrp]
    exact sendPhase_next_of_not_confirms endpoints opts it st1 h

theorem runLoop_none_of_no_confirm (endpoints : List String)
    (opts : SteroidSendOptions) :
    ∀ (iters : List IterEnv) (st : LoopSt),
      (∀ it ∈ iters, iterConfirms endpoints opts it = false) →
      ∃ stF, runLoop endpoints opts iters st = (none, stF) := by
  intro iters
  induction iters with
  | nil => exact fun st _ => ⟨st, rfl⟩
  | cons it rest ih =>
    intro st h
    obtain ⟨st2, hstep⟩ := runIteration_next_of_not_confirms endpoints opts it st
      (h it (List.mem_cons_self it rest))
    obtain ⟨stF, hrest⟩ := ih st2 (fun j hj => h j (List.mem_cons_of_mem it hj))
    refine ⟨stF, ?_⟩
    unfold runLoop
    rw [hstep]
    exact hrest

theorem simPhase_ok (info : TransactionStateInfo) (sim : Except String SimulationValue)
    (skip : Bool) (h : skip = true ∨ ∃ u, simulateTransaction sim = Except.ok u) :
    ∃ info2, simPhase info sim skip = .ok info2 ∧
      info2.attempts = info.attempts := by
  by_cases hskip : skip = true
  · refine ⟨info, ?_, rfl⟩
    unfold simPhase
    rw [if_pos hskip]
  · rcases h with h | ⟨u, hu⟩
    · exact absurd h hskip
    · refine ⟨updateState (updateState info .PENDING none none) .SIMULATED none none, ?_, rfl⟩
      unfold simPhase
      rw [if_neg hskip, hu]

theorem setupPhase_ok (tx : TxModel) (fetch : Except String BlockhashInfo)
    (h : isLegacyTransaction tx = false ∨ ∃ bh, fetch = Except.ok bh) :
    ∃ tx1 fc wc, setupPhase tx fetch = .ok (tx1, fc, wc) := by
  by_cases hleg : isLegacyTransaction tx = true
  · rcases h with h | ⟨bh, hbh⟩
    · rw [hleg] at h; cases h
    · refine ⟨applyBlockhash tx bh, 1, 2, ?_⟩
      unfold setupPhase
      rw [if_pos hleg, hbh]
      rfl
  · refine ⟨tx, 0, 0, ?_⟩
    unfold setupPhase
    rw [if_neg hleg]

/-- C2 (amended): when the deadline expires without confirmation,
`sendAndConfirm` rejects with the timeout error carrying the total attempt
count and the last known signature, the record is set to `EXPIRED` and is
then overwritten by the outer failure handler, so the final stored status is
`FAILED`, not `EXPIRED`. -/
theorem sendAndConfirm_timeout_rejects (endpoints : List String) (env : TxEnv)
    (tx : TxModel) (opts : SteroidSendOptions)
    (hsim : opts.skipPreflight = true ∨ ∃ u, simulateTransaction env.simulation = Except.ok u)
    (hbh : isLegacyTransaction tx = false ∨ ∃ bh, env.initialBlockhash = Except.ok bh)
    (hnc : ∀ it ∈ env.iterations, iterConfirms endpoints opts it = false) :
    ∃ stF : LoopSt,
      (sendAndConfirm endpoints env tx opts).result =
        .error ("[SteroidTransaction] " ++
          ("Transaction not confirmed within " ++ toString opts.timeoutSeconds ++
            "s after " ++ toString stF.info.attempts ++ " attempts") ++
          ". Last signature: " ++
          (if stF.signature = "" then "none" else stF.signature)) ∧
      (sendAndConfirm endpoints env tx opts).finalInfo =
        updateState
          (updateState stF.info .EXPIRED (some stF.signature)
            (some ("Transaction not confirmed within " ++ toString opts.timeoutSeconds ++
              "s after " ++ toString stF.info.attempts ++ " attempts")))
          .FAILED
          (updateState stF.info .EXPIRED (some stF.signature)
            (some ("Transaction not confirmed within " ++ toString opts.timeoutSeconds ++
              "s after " ++ toString stF.info.attempts ++ " attempts"))).signature
          (some ("[SteroidTransaction] " ++
            ("Transaction not confirmed within " ++ toString opts.timeoutSeconds ++
              "s after " ++ toString stF.info.attempts ++ " attempts") ++
            ". Last signature: " ++
            (if stF.signature = "" then "none" else stF.signature))) ∧
      (sendAndConfirm endpoints env tx opts).finalInfo.state = TransactionState.FAILED := by
  obtain ⟨info2, hph, _⟩ := simPhase_ok
    { state := .PENDING, attempts := 0, startTime := env.initialNow }
    env.simulation opts.skipPreflight hsim
  obtain ⟨tx1, fc, wc, hsp2⟩ := setupPhase_ok tx env.initialBlockhash hbh
  obtain ⟨stF, hloop⟩ := runLoop_none_of_no_confirm endpoints opts env.iterations
    { tx := tx1, signature := "", lastBlockhashRefresh := env.initialNow,
      attempts := 0, info := info2, broadcastCount := 0,
      blockhashFetchCount := fc, txFieldWrites := wc } hnc
  refine ⟨stF, ?_, ?_, ?_⟩ <;>
    · unfold sendAndConfirm
      simp only [hph, hsp2, hloop]
      try rfl

/-- C2 counterexample: a delivery whose single permitted iteration broadcasts
but never confirms. At the deadline the record is set to `EXPIRED`, but the
thrown timeout error then passes through the outer catch, which overwrites
the record to `FAILED`: the final stored status is `FAILED`, not `EXPIRED`
(while the rejection does carry the attempt count and last signature). -/
theorem sendAndConfirm_timeout_overwrites_EXPIRED :
    (sendAndConfirm ["u1"] envC2 (TxModel.legacy none none) {}).finalInfo.state =
      TransactionState.FAILED ∧
    ¬ (sendAndConfirm ["u1"] envC2 (TxModel.legacy none none) {}).finalInfo.state =
      TransactionState.EXPIRED ∧
    (sendAndConfirm ["u1"] envC2 (TxModel.legacy none none) {}).result =
      .error "[SteroidTransaction] Transaction not confirmed within 60s after 1 attempts. Last signature: SIG" := by
  refine ⟨rfl, ?_, rfl⟩
  decide

/-- Witness for the amended C2 at the concrete environment `envC2`. -/
theorem sendAndConfirm_timeout_rejects_witness :
    ∃ stF : LoopSt,
      (sendAndConfirm ["u1"] envC2 (TxModel.legacy none none) {}).result =
        .error ("[SteroidTransaction] " ++
          ("Transaction not confirmed within " ++ toString (60 : Nat) ++
            "s after " ++ toString stF.info.attempts ++ " attempts") ++
          ". Last signature: " ++
          (if stF.signature = "" then "none" else stF.signature)) ∧
      (sendAndConfirm ["u1"] envC2 (TxModel.legacy none none) {}).finalInfo =
        updateState
          (updateState stF.info .EXPIRED (some stF.signature)
            (some ("Transaction not confirmed within " ++ toString (60 : Nat) ++
              "s after " ++ toString stF.info.attempts ++ " attempts")))
          .FAILED
          (updateState stF.info .EXPIRED (some stF.signature)
            (some ("Transaction not confirmed within " ++ toString (60 : Nat) ++
              "s after " ++ toString stF.info.attempts ++ " attempts"))).signature
          (some ("[SteroidTransaction] " ++
            ("Transaction not confirmed within " ++ toString (60 : Nat) ++
              "s after " ++ toString stF.info.attempts ++ " attempts") ++
            ". Last signature: " ++
            (if stF.signature = "" then "none" else stF.signature))) ∧
      (sendAndConfirm ["u1"] envC2 (TxModel.legacy none none) {}).finalInfo.state =
        TransactionState.FAILED :=
  sendAndConfirm_timeout_rejects ["u1"] envC2 (TxModel.legacy none none) {}
    (Or.inr ⟨(), rfl⟩)
    (Or.inr ⟨{ blockhash := "B1", lastValidBlockHeight := 100 }, rfl⟩)
    (by decide)

theorem refreshPhase_skip (opts : SteroidSendOptions) (it : IterEnv) (st : LoopSt)
    (hleg : isLegacyTransaction st.tx = false) :
    refreshPhase opts it st = .ok st := by
  unfold refreshPhase
  rw [if_neg]
  intro hc
  rw [hleg] at hc
  exact absurd hc.2 (by simp)

theorem runIteration_versioned_bhx (endpoints : List String)
    (opts : SteroidSendOptions) (it : IterEnv) (st : LoopSt)
    (htx : st.tx = TxModel.versioned) (e : ErrorInfo)
    (hso : it.sendOutcome = Except.error e) (hbx : isBlockhashExpiredError e = true) :
    runIteration endpoints opts it st = .next
      { st with
        attempts := st.attempts + 1
        info := { st.info with
                  attempts := st.attempts + 1
                  lastAttemptTime := some it.now }
        broadcastCount := st.broadcastCount + 1
        lastBlockhashRefresh := 0 } := by
  have hlegB : isLegacyTransaction st.tx = false := by rw [htx]; rfl
  unfold runIteration
  have hrp : refreshPhase opts it
      { st with
        attempts := st.attempts + 1
        info := { st.info with
                  attempts := st.attempts + 1
                  lastAttemptTime := some it.now } } =
      .ok { st with
        attempts := st.attempts + 1
        info := { st.info with
                  attempts := st.attempts + 1
                  lastAttemptTime := some it.now } } :=
    refreshPhase_skip opts it _ hlegB
  simp only [hrp]
  unfold sendPhase
  simp only [hso, hbx, if_true]

theorem runLoop_versioned_expired (endpoints : List String) (opts : SteroidSendOptions) :
    ∀ (iters : List IterEnv) (st : LoopSt), st.tx = TxModel.versioned →
      (∀ it ∈ iters, ∃ e, it.sendOutcome = Except.error e ∧
        isBlockhashExpiredError e = true) →
      ∃ stF, runLoop endpoints opts iters st = (none, stF) ∧
        stF.tx = TxModel.versioned ∧
        stF.blockhashFetchCount = st.blockhashFetchCount ∧
        stF.txFieldWrites = st.txFieldWrites ∧
        stF.broadcastCount = st.broadcastCount + iters.length ∧
        stF.signature = st.signature ∧
        (st.info.attempts = st.attempts →
          stF.info.attempts = st.attempts + iters.length) := by
  intro iters
  induction iters with
  | nil =>
    intro st htx _
    exact ⟨st, rfl, htx, rfl, rfl, rfl, rfl, fun h => h⟩
  | cons it rest ih =>
    intro st htx hall
    obtain ⟨e, hso, hbx⟩ := hall it (List.mem_cons_self it rest)
    have hstep := runIteration_versioned_bhx endpoints opts it st htx e hso hbx
    obtain ⟨stF, hrest, h1, h2, h3, h4, h5, h6⟩ := ih
      { st with
        attempts := st.attempts + 1
        info := { st.info with
                  attempts := st.attempts + 1
                  lastAttemptTime := some it.now }
        broadcastCount := st.broadcastCount + 1
        lastBlockhashRefresh := 0 }
      htx (fun j hj => hall j (List.mem_cons_of_mem it hj))
    refine ⟨stF, ?_, h1, h2, h3, ?_, h5, ?_⟩
    · unfold runLoop
      rw [hstep]
      exact hrest
    · have h4r : stF.broadcastCount = st.broadcastCount + 1 + rest.length := h4
      simp only [List.length_cons]
      omega
    · intro _
      have h6r : stF.info.attempts = st.attempts + 1 + rest.length := h6 rfl
      simp only [List.length_cons]
      omega

/-- C10: for a versioned payload, `sendAndConfirm` performs no blockhash
fetch and no transaction field assignment (all three refresh sites are
guarded by the structural legacy check); when every broadcast fails with a
blockhash-expiration error, the loop simply re-broadcasts once per permitted
iteration and the call ends on the deadline path with the payload unchanged. -/
theorem sendAndConfirm_versioned_frame (endpoints : List String) (env : TxEnv)
    (opts : SteroidSendOptions)
    (hsim : opts.skipPreflight = true ∨ ∃ u, simulateTransaction env.simulation = Except.ok u)
    (hbx : ∀ it ∈ env.iterations, ∃ e, it.sendOutcome = Except.error e ∧
      isBlockhashExpiredError e = true) :
    (sendAndConfirm endpoints env TxModel.versioned opts).blockhashFetchCount = 0 ∧
    (sendAndConfirm endpoints env TxModel.versioned opts).txFieldWrites = 0 ∧
    (sendAndConfirm endpoints env TxModel.versioned opts).finalTx = TxModel.versioned ∧
    (sendAndConfirm endpoints env TxModel.versioned opts).broadcastCount =
      env.iterations.length ∧
    (sendAndConfirm endpoints env TxModel.versioned opts).result =
      .error ("[SteroidTransaction] " ++
        ("Transaction not confirmed within " ++ toString opts.timeoutSeconds ++
          "s after " ++ toString env.iterations.length ++ " attempts") ++
        ". Last signature: " ++ "none") := by
  obtain ⟨info2, hph, hatt⟩ := simPhase_ok
    { state := .PENDING, attempts := 0, startTime := env.initialNow }
    env.simulation opts.skipPreflight hsim
  have hsp2 : setupPhase TxModel.versioned env.initialBlockhash =
      .ok (TxModel.versioned, 0, 0) := rfl
  obtain ⟨stF, hloop, h1, h2, h3, h4, h5, h6⟩ :=
    runLoop_versioned_expired endpoints opts env.iterations
      { tx := TxModel.versioned, signature := "", lastBlockhashRefresh := env.initialNow,
        attempts := 0, info := info2, broadcastCount := 0,
        blockhashFetchCount := 0, txFieldWrites := 0 }
      rfl hbx
  have hfc : stF.blockhashFetchCount = 0 := h2
  have hwc : stF.txFieldWrites = 0 := h3
  have hsig : stF.signature = "" := h5
  have hattempts : stF.info.attempts = env.iterations.length := by
    have hh : stF.info.attempts = 0 + env.iterations.length := h6 hatt
    omega
  have hbc : stF.broadcastCount = env.iterations.length := by
    have hh : stF.broadcastCount = 0 + env.iterations.length := h4
    omega
  refine ⟨?_, ?_, ?_, ?_, ?_⟩ <;>
    · unfold sendAndConfirm
      simp only [hph, hsp2, hloop, hfc, hwc, h1, hbc, hattempts, hsig]
      try rfl

/-- Witness for C10: a versioned payload, one permitted iteration whose
broadcast fails with `blockhash not found`. -/
theorem sendAndConfirm_versioned_frame_witness :
    (sendAndConfirm ["u1"] envC10 TxModel.versioned { skipPreflight := true }).blockhashFetchCount = 0 ∧
    (sendAndConfirm ["u1"] envC10 TxModel.versioned { skipPreflight := true }).txFieldWrites = 0 ∧
    (sendAndConfirm ["u1"] envC10 TxModel.versioned { skipPreflight := true }).finalTx = TxModel.versioned ∧
    (sendAndConfirm ["u1"] envC10 TxModel.versioned { skipPreflight := true }).broadcastCount = 1 ∧
    (sendAndConfirm ["u1"] envC10 TxModel.versioned { skipPreflight := true }).result =
      .error "[SteroidTransaction] Transaction not confirmed within 60s after 1 attempts. Last signature: none" :=
  sendAndConfirm_versioned_frame ["u1"] envC10 { skipPreflight := true }
    (Or.inl rfl)
    (fun it hit => by
      simp only [envC10, List.mem_singleton] at hit
      subst hit
      exact ⟨⟨"blockhash not found", 0⟩, rfl, by decide⟩)
